import Mathlib

/-!
# Verification of the Kocom Wallpad core (framer, codec, transport, queue, client)

Shallow embedding of the repository's Python source
(`custom_components/kocom_wallpad/connection.py` and
`custom_components/kocom_wallpad/pywallpad/client.py`) as executable Lean
definitions, together with theorems settling the frozen claims about it.

Bytes are modelled as `Nat` (values < 256 in practice; no arithmetic here
overflows a byte except where an explicit `% 256` is written, exactly as in
the modelled checksum).  Wall-clock times and durations are modelled as `ℚ`.
-/

/-- Embedding of Python `bytes.find(pat)` restricted to searching from the
start: returns the least index `i` such that `pat` occurs in `data` at `i`
(i.e. `data[i : i + len(pat)] == pat`), or `none` when there is no occurrence.
Python's `find(pat, start)` is then `findSub (data.drop start) pat` shifted by
`start`, which is how the scanning loop below consumes its buffer. -/
def findSub : List Nat → List Nat → Option Nat
  | [], pat => if pat.isPrefixOf [] then some 0 else none
  | x :: t, pat =>
    if pat.isPrefixOf (x :: t) then some 0 else (findSub t pat).map (· + 1)


/-- Alias for the Batteries bridge between executable `isPrefixOf` and the
`<+:` relation, under a local name. -/
theorem isPrefixOf_iff {l₁ l₂ : List Nat} : l₁.isPrefixOf l₂ = true ↔ l₁ <+: l₂ :=
  List.isPrefixOf_iff_prefix

/-- `l <+: []` iff `l` is empty, under a local name. -/
theorem pre_nil {l : List Nat} : l <+: ([] : List Nat) ↔ l = [] :=
  List.prefix_nil

/-- A list is a prefix of itself appended with anything, under a local name. -/
theorem pre_append (l₁ l₂ : List Nat) : l₁ <+: l₁ ++ l₂ :=
  List.prefix_append l₁ l₂

/-- Characterisation of `<+:` by `take`, under a local name. -/
theorem pre_iff_take {l₁ l₂ : List Nat} : l₁ <+: l₂ ↔ l₁ = l₂.take l₁.length :=
  List.prefix_iff_eq_take

/-- Modelled from the spec: `pywallpad/const.py` is not under `src/`.  The
spec (§6) states only that the header and trailer markers are a fixed pair of
protocol constants, distinct for header and trailer; we use the Kocom wire
constants `aa 55` (header) and `0d 0d` (trailer).  Every theorem below that
depends on the marker values needs only that they are two-byte constants
whose header has two distinct bytes. -/
def PREFIX_HEADER : List Nat := [0xaa, 0x55]

/-- Modelled from the spec: the fixed trailer marker (see `PREFIX_HEADER`). -/
def SUFFIX_HEADER : List Nat := [0x0d, 0x0d]

/-- One pass of the scanning loop of `KocomClient.extract_packets`
(client.py 292-322), written on the not-yet-consumed tail of the buffer.

The source loop keeps an absolute index `start` into the immutable `data` and
calls `data.find(PREFIX_HEADER, start)` / `data.find(SUFFIX_HEADER,
start_pos + len(PREFIX_HEADER))`; searching `data` from index `start` is the
same as searching `data.drop start`, so here `data` is the tail from `start`
on and all positions are relative to it.  With `p` the header position and
`q` the trailer position relative to `start_pos + 2`, the source's
`end_pos = start_pos + 2 + q`, the candidate packet is
`data[start_pos : end_pos + 2]` (relative: `(data.drop p).take (q + 4)`), the
length gate is `len(packet) < len(PREFIX_HEADER) + len(SUFFIX_HEADER) + 1 = 5`,
and the loop resumes at `end_pos + 2` (relative: `(data.drop p).drop (q + 4)`).
The source's `while start < len(data)` guard is subsumed by `find` returning
`-1` on an empty remainder.  `fuel` only bounds the number of iterations:
every iteration consumes at least four bytes, so `data.length + 1` iterations
always suffice (`extractGo_fuel`). -/
def extractGo : Nat → List Nat → List (List Nat)
  | 0, _ => []
  | fuel + 1, data =>
    match findSub data PREFIX_HEADER with
    | none => []
    | some p =>
      match findSub ((data.drop p).drop 2) SUFFIX_HEADER with
      | none => []
      | some q =>
        if ((data.drop p).take (q + 4)).length < 5 then
          extractGo fuel ((data.drop p).drop (q + 4))
        else
          ((data.drop p).take (q + 4)) :: extractGo fuel ((data.drop p).drop (q + 4))

/-- `KocomClient.extract_packets` (client.py 292-322): extract all complete
frames from a received byte buffer.  (The source's blanket `except` clause is
dead in this embedding: every operation in the loop is total.) -/
def extract_packets (data : List Nat) : List (List Nat) :=
  extractGo (data.length + 1) data

/-- The per-chunk framing performed by `KocomClient._listen`
(client.py 188-239): each chunk returned by `connection.receive` is passed to
`extract_packets` on its own (`receive_data` is a local variable), and the
resulting packets are processed in order; no bytes are retained from one
`receive` call to the next. -/
def listen_chunks (chunks : List (List Nat)) : List (List Nat) :=
  (chunks.map extract_packets).flatten

-- Sanity checks on concrete buffers (kernel-evaluable since `extractGo` is
-- structural in its fuel).
example : extract_packets [0xaa, 0x55, 0x01, 0x02, 0x03, 0x0d, 0x0d] =
    [[0xaa, 0x55, 0x01, 0x02, 0x03, 0x0d, 0x0d]] := by decide
example : extract_packets [0xff, 0xaa, 0x55, 0x01, 0x0d, 0x0d, 0xee] =
    [[0xaa, 0x55, 0x01, 0x0d, 0x0d]] := by decide
example : extract_packets [0xaa, 0x55, 0x01, 0x02] = [] := by decide
example : extract_packets [0xaa, 0x55, 0x0d, 0x0d, 0xaa, 0x55, 0x07, 0x0d, 0x0d] =
    [[0xaa, 0x55, 0x07, 0x0d, 0x0d]] := by decide

/-! ### Properties of `findSub` (Python `bytes.find`) -/

/-- A found occurrence fits inside the searched data. -/
theorem findSub_le {d pat : List Nat} {i : Nat} (h : findSub d pat = some i) :
    i + pat.length ≤ d.length := by
  induction d generalizing i with
  | nil =>
    rw [findSub] at h
    split at h
    · cases h
      simpa using pre_nil.mp (isPrefixOf_iff.mp ‹_›)
    · cases h
  | cons x t ih =>
    rw [findSub] at h
    split at h
    · cases h
      simpa using (isPrefixOf_iff.mp ‹_›).length_le
    · simp only [Option.map_eq_some'] at h
      obtain ⟨j, hj, rfl⟩ := h
      have := ih hj
      simp only [List.length_cons]
      omega

/-- A found occurrence really is an occurrence. -/
theorem findSub_occ {d pat : List Nat} {i : Nat} (h : findSub d pat = some i) :
    pat <+: d.drop i := by
  induction d generalizing i with
  | nil =>
    rw [findSub] at h
    split at h
    · cases h
      simpa using pre_nil.mp (isPrefixOf_iff.mp ‹_›)
    · cases h
  | cons x t ih =>
    rw [findSub] at h
    split at h
    · cases h
      simpa using isPrefixOf_iff.mp ‹_›
    · simp only [Option.map_eq_some'] at h
      obtain ⟨j, hj, rfl⟩ := h
      simpa using ih hj

/-- `findSub` returns the first occurrence. -/
theorem findSub_min {d pat : List Nat} {i : Nat} (h : findSub d pat = some i) :
    ∀ j, j < i → ¬ pat <+: d.drop j := by
  induction d generalizing i with
  | nil =>
    rw [findSub] at h
    split at h
    · cases h
      omega
    · cases h
  | cons x t ih =>
    intro j hj hpre
    rw [findSub] at h
    split at h
    · cases h
      omega
    · rename_i hnp
      simp only [Option.map_eq_some'] at h
      obtain ⟨k, hk, rfl⟩ := h
      match j with
      | 0 => exact hnp (isPrefixOf_iff.mpr (by simpa using hpre))
      | j' + 1 => exact ih hk j' (by omega) (by simpa using hpre)

/-- `findSub` misses nothing. -/
theorem findSub_none {d pat : List Nat} (h : findSub d pat = none) :
    ∀ j, ¬ pat <+: d.drop j := by
  induction d with
  | nil =>
    intro j hp
    rw [findSub] at h
    split at h
    · cases h
    · exact ‹¬ _› (isPrefixOf_iff.mpr (by simpa using hp))
  | cons x t ih =>
    intro j hp
    rw [findSub] at h
    split at h
    · cases h
    · rename_i hnp
      simp only [Option.map_eq_none'] at h
      match j with
      | 0 => exact hnp (isPrefixOf_iff.mpr (by simpa using hp))
      | j' + 1 => exact ih h j' (by simpa using hp)

/-- An occurrence found wholly inside `a` is still the first occurrence after
appending anything to the right of `a`. -/
theorem findSub_append_left {a : List Nat} (b : List Nat) {pat : List Nat} {i : Nat}
    (h : findSub a pat = some i) : findSub (a ++ b) pat = some i := by
  induction a generalizing i with
  | nil =>
    rw [findSub] at h
    split at h
    · cases h
      rename_i hp
      have hpe : pat = [] := by simpa using isPrefixOf_iff.mp hp
      subst hpe
      rw [List.nil_append]
      cases b <;> simp [findSub, List.isPrefixOf]
    · cases h
  | cons x t ih =>
    rw [findSub] at h
    rw [List.cons_append, findSub]
    split at h
    · cases h
      rw [if_pos]
      exact isPrefixOf_iff.mpr
        ((isPrefixOf_iff.mp ‹_›).trans (pre_append _ b))
    · rename_i hnp
      simp only [Option.map_eq_some'] at h
      obtain ⟨k, hk, rfl⟩ := h
      rw [if_neg, ih hk]
      · rfl
      · intro hp
        have hle := findSub_le hk
        have hpre := isPrefixOf_iff.mp hp
        rw [pre_iff_take] at hpre
        rw [← List.cons_append, List.take_append_of_le_length
          (by simp only [List.length_cons]; omega)] at hpre
        exact hnp (isPrefixOf_iff.mpr (pre_iff_take.mpr hpre))

/-- Scanning junk that contains no header marker, followed by data that starts
with the header marker, finds the header exactly at the junk/data boundary.
(A spurious occurrence spanning the boundary is impossible because the two
header bytes differ and the data after the junk starts with the first header
byte.) -/
theorem findSub_PRE_append {a b : List Nat} (ha : findSub a PREFIX_HEADER = none)
    (hb : PREFIX_HEADER <+: b) : findSub (a ++ b) PREFIX_HEADER = some a.length := by
  induction a with
  | nil =>
    rw [List.nil_append, List.length_nil]
    obtain ⟨s, rfl⟩ := hb
    rw [PREFIX_HEADER, List.cons_append, List.cons_append, findSub, if_pos]
    rw [isPrefixOf_iff]
    exact ⟨s, rfl⟩
  | cons x t ih =>
    rw [findSub] at ha
    split at ha
    · cases ha
    · rename_i hnp
      simp only [Option.map_eq_none'] at ha
      rw [List.cons_append, findSub, if_neg, ih ha]
      · simp
      · intro hp
        obtain ⟨s, hs⟩ := isPrefixOf_iff.mp hp
        rw [PREFIX_HEADER] at hs
        simp only [List.cons_append, List.nil_append] at hs
        obtain ⟨hx, hs⟩ := List.cons.inj hs
        cases t with
        | nil =>
          obtain ⟨s', rfl⟩ := hb
          rw [List.nil_append] at hs
          rw [PREFIX_HEADER, List.cons_append] at hs
          exact absurd (List.cons.inj hs).1 (by decide)
        | cons z t' =>
          rw [List.cons_append] at hs
          obtain ⟨hz, _⟩ := List.cons.inj hs
          apply hnp
          rw [isPrefixOf_iff, PREFIX_HEADER, hx, hz]
          exact ⟨t', rfl⟩

/-! ### Unfolding and fuel lemmas for the framer -/

/-- Unfold one iteration of the scan when no header is found. -/
theorem extractGo_noPre {fuel : Nat} {data : List Nat}
    (h : findSub data PREFIX_HEADER = none) : extractGo (fuel + 1) data = [] := by
  rw [extractGo, h]

/-- Unfold one iteration of the scan when a header but no trailer is found. -/
theorem extractGo_noSuf {fuel : Nat} {data : List Nat} {p : Nat}
    (h1 : findSub data PREFIX_HEADER = some p)
    (h2 : findSub ((data.drop p).drop 2) SUFFIX_HEADER = none) :
    extractGo (fuel + 1) data = [] := by
  simp only [extractGo, h1, h2]

/-- Unfold one complete iteration of the scan. -/
theorem extractGo_step {fuel : Nat} {data : List Nat} {p q : Nat}
    (h1 : findSub data PREFIX_HEADER = some p)
    (h2 : findSub ((data.drop p).drop 2) SUFFIX_HEADER = some q) :
    extractGo (fuel + 1) data =
      if ((data.drop p).take (q + 4)).length < 5 then
        extractGo fuel ((data.drop p).drop (q + 4))
      else ((data.drop p).take (q + 4)) :: extractGo fuel ((data.drop p).drop (q + 4)) := by
  simp only [extractGo, h1, h2]

/-- Each iteration consumes at least four bytes, so any fuel above the buffer
length computes the same packet list. -/
theorem extractGo_fuel : ∀ {f1 : Nat} {data : List Nat}, ∀ f2 : Nat,
    data.length < f1 → data.length < f2 → extractGo f1 data = extractGo f2 data := by
  intro f1
  induction f1 with
  | zero => intro data f2 h1 _; omega
  | succ f1' ih =>
    intro data f2 h1 h2
    match f2, h2 with
    | f2' + 1, h2 =>
      match hp : findSub data PREFIX_HEADER with
      | none => rw [extractGo_noPre hp, extractGo_noPre hp]
      | some p =>
        match hq : findSub ((data.drop p).drop 2) SUFFIX_HEADER with
        | none => rw [extractGo_noSuf hp hq, extractGo_noSuf hp hq]
        | some q =>
          rw [extractGo_step hp hq, extractGo_step hp hq]
          have hple := findSub_le hp
          have hqle := findSub_le hq
          simp only [List.length_drop, PREFIX_HEADER, SUFFIX_HEADER, List.length_cons,
            List.length_nil] at hple hqle
          have hrest : ((data.drop p).drop (q + 4)).length < min f1' f2' := by
            simp only [List.length_drop]
            omega
          have := ih f2' (by omega : ((data.drop p).drop (q + 4)).length < f1')
            (by omega : ((data.drop p).drop (q + 4)).length < f2')
          rw [this]

/-- One full scanning step of `extract_packets` over a buffer that begins with
non-header junk followed by a candidate frame: the candidate is emitted iff it
meets the minimum length, and scanning continues just past its trailer. -/
theorem extract_step {junk f rest : List Nat}
    (hj : findSub junk PREFIX_HEADER = none)
    (hlen : 4 ≤ f.length)
    (hf2 : f.take 2 = PREFIX_HEADER)
    (hfs : findSub (f.drop 2) SUFFIX_HEADER = some (f.length - 4)) :
    extract_packets (junk ++ (f ++ rest)) =
      (if f.length < 5 then [] else [f]) ++ extract_packets rest := by
  have hPREf : PREFIX_HEADER <+: f := pre_iff_take.mpr hf2.symm
  have h1 : findSub (junk ++ (f ++ rest)) PREFIX_HEADER = some junk.length :=
    findSub_PRE_append hj (hPREf.trans (pre_append f rest))
  have hdrop1 : (junk ++ (f ++ rest)).drop junk.length = f ++ rest :=
    List.drop_left junk (f ++ rest)
  have h2 : ((f ++ rest).drop 2) = f.drop 2 ++ rest :=
    List.drop_append_of_le_length (by omega)
  have h3 : findSub ((f ++ rest).drop 2) SUFFIX_HEADER = some (f.length - 4) := by
    rw [h2]
    exact findSub_append_left rest hfs
  have hq4 : f.length - 4 + 4 = f.length := by omega
  rw [extract_packets, extractGo_step h1 (by rw [hdrop1]; exact h3)]
  rw [hdrop1, hq4, List.take_left, List.drop_left]
  have hN : extractGo (junk ++ (f ++ rest)).length rest = extract_packets rest := by
    rw [extract_packets]
    refine extractGo_fuel _ ?_ (by omega)
    simp only [List.length_append]
    omega
  rw [hN]
  split <;> simp

/-- The class of byte buffers the (amended) framer claim quantifies over: a
buffer is `Chunks data fs` when `data` is a concatenation of junk segments
containing no header marker, well-formed frames (header, at least one
payload/integrity byte, trailer, and no earlier trailer-marker occurrence than
the frame's own trailer), and degenerate header-then-immediately-trailer
candidates; `fs` collects the well-formed frames in order. -/
inductive Chunks : List Nat → List (List Nat) → Prop where
  | nil (junk : List Nat) (hj : findSub junk PREFIX_HEADER = none) : Chunks junk []
  | frame (junk f rest : List Nat) (fs : List (List Nat))
      (hj : findSub junk PREFIX_HEADER = none)
      (hlen : 5 ≤ f.length)
      (hf2 : f.take 2 = PREFIX_HEADER)
      (hfs : findSub (f.drop 2) SUFFIX_HEADER = some (f.length - 4))
      (hrest : Chunks rest fs) : Chunks (junk ++ (f ++ rest)) (f :: fs)
  | short (junk rest : List Nat) (fs : List (List Nat))
      (hj : findSub junk PREFIX_HEADER = none)
      (hrest : Chunks rest fs) :
      Chunks (junk ++ ((PREFIX_HEADER ++ SUFFIX_HEADER) ++ rest)) fs

/-- **C2 (amended).** For every input buffer formed by concatenating valid
frames — header marker, at least one payload/integrity byte, trailer marker,
*and whose first trailer-marker occurrence after the header is the frame's own
trailer* — interleaved with junk containing no header marker and with
too-short `header ++ trailer` candidates, `extract_packets` returns exactly
the valid frames, byte-identical and in order; short candidates are discarded
with scanning resuming just past their trailer, and junk before a header is
skipped. -/
theorem c2_extract_packets_exact {data : List Nat} {fs : List (List Nat)}
    (h : Chunks data fs) : extract_packets data = fs := by
  induction h with
  | nil junk hj =>
    rw [extract_packets, extractGo_noPre hj]
  | frame junk f rest fs hj hlen hf2 hfs hrest ih =>
    rw [extract_step hj (by omega) hf2 hfs, ih, if_neg (by omega)]
    rfl
  | short junk rest fs hj hrest ih =>
    have hfs : findSub (((PREFIX_HEADER ++ SUFFIX_HEADER) : List Nat).drop 2)
        SUFFIX_HEADER = some ((PREFIX_HEADER ++ SUFFIX_HEADER : List Nat).length - 4) := by
      decide
    rw [extract_step hj (by decide) (by decide) hfs, ih, if_pos (by decide)]
    rfl

/-- Witness for `c2_extract_packets_exact`: junk, a 7-byte frame, a short
candidate, junk, a 5-byte frame, trailing junk. -/
theorem c2_extract_packets_exact_witness :
    extract_packets
      ([0x01, 0x0d] ++ ([0xaa, 0x55, 0x30, 0x31, 0x02, 0x0d, 0x0d] ++
        ([] ++ ((PREFIX_HEADER ++ SUFFIX_HEADER) ++
          ([0x99] ++ ([0xaa, 0x55, 0x42, 0x0d, 0x0d] ++ [0x0d, 0xaa])))))) =
      [[0xaa, 0x55, 0x30, 0x31, 0x02, 0x0d, 0x0d], [0xaa, 0x55, 0x42, 0x0d, 0x0d]] :=
  c2_extract_packets_exact
    (Chunks.frame _ _ _ _ (by decide) (by decide) (by decide) (by decide)
      (Chunks.short _ _ _ (by decide)
        (Chunks.frame _ _ _ _ (by decide) (by decide) (by decide) (by decide)
          (Chunks.nil _ (by decide)))))

/-- **C2 (counterexample to the claim as stated).** A buffer consisting of a
single valid frame in the claim's sense — starts with the header marker, ends
with the trailer marker, total length `7 ≥ header+trailer+1` — on which
`extract_packets` returns no frame at all (its payload contains the trailer
marker, so the scan cuts a too-short candidate and discards the rest), instead
of the claimed `[frame]`. -/
theorem c2_counterexample :
    ([0xaa, 0x55, 0x0d, 0x0d, 0x01, 0x0d, 0x0d] : List Nat).take 2 = PREFIX_HEADER ∧
    ([0xaa, 0x55, 0x0d, 0x0d, 0x01, 0x0d, 0x0d] : List Nat).drop 5 = SUFFIX_HEADER ∧
    5 ≤ ([0xaa, 0x55, 0x0d, 0x0d, 0x01, 0x0d, 0x0d] : List Nat).length ∧
    extract_packets [0xaa, 0x55, 0x0d, 0x0d, 0x01, 0x0d, 0x0d] = [] := by
  decide

/-- **C3 (counterexample to the claim as stated).** A frame split across two
received chunks: the first chunk holds the header and part of the payload, the
second the rest and the trailer.  The claim says the partial frame is retained
and the frame is emitted once the trailer arrives; the listener actually
frames each chunk independently and emits nothing, even though the
concatenation of the two chunks is a perfectly valid single frame. -/
theorem c3_counterexample :
    listen_chunks [[0xaa, 0x55, 0x30], [0x31, 0x0d, 0x0d]] = [] ∧
    extract_packets ([0xaa, 0x55, 0x30] ++ [0x31, 0x0d, 0x0d]) =
      [[0xaa, 0x55, 0x30, 0x31, 0x0d, 0x0d]] := by
  decide

/-- **C3 (amended).** The framer is *not* restartable: `extract_packets` holds
no state between invocations and `_listen` passes each received chunk to it
independently, discarding the unconsumed tail.  A chunk containing a header
with no following trailer yields zero frames, and processing a later chunk is
unaffected by it (so a frame split across chunks is never emitted). -/
theorem c3_listener_stateless (c later : List Nat) (p : Nat)
    (h1 : findSub c PREFIX_HEADER = some p)
    (h2 : findSub ((c.drop p).drop 2) SUFFIX_HEADER = none) :
    extract_packets c = [] ∧ listen_chunks [c, later] = extract_packets later := by
  have hc : extract_packets c = [] := by
    rw [extract_packets, extractGo_noSuf h1 h2]
  refine ⟨hc, ?_⟩
  simp [listen_chunks, hc]

/-- Witness for `c3_listener_stateless` at a concrete truncated chunk and a
concrete later chunk. -/
theorem c3_listener_stateless_witness :
    extract_packets [0xaa, 0x55, 0x30] = [] ∧
    listen_chunks [[0xaa, 0x55, 0x30], [0xaa, 0x55, 0x07, 0x0d, 0x0d]] =
      extract_packets [0xaa, 0x55, 0x07, 0x0d, 0x0d] :=
  c3_listener_stateless [0xaa, 0x55, 0x30] [0xaa, 0x55, 0x07, 0x0d, 0x0d] 0
    (by decide) (by decide)

/-! ### Transport (`connection.py`) -/

/-- The mutable state of `Connection` (connection.py 12-30).  `connected`
abstracts "writer present, not closing, socket available", the condition
`is_connected` checks; times are rationals (seconds). -/
structure ConnState where
  connected : Bool
  reconnect_attempts : Nat
  last_reconnect_attempt : Option ℚ
  next_attempt_time : Option ℚ
  max_reconnect_attempts : Nat
  last_send_time : ℚ
  packet_interval : ℚ
deriving DecidableEq

/-- The state `Connection.__init__` builds: no stream, zero reconnect
attempts, `max_reconnect_attempts = 10`, `packet_interval = 0.8`. -/
def Connection.init : ConnState :=
  { connected := false, reconnect_attempts := 0, last_reconnect_attempt := none,
    next_attempt_time := none, max_reconnect_attempts := 10,
    last_send_time := 0, packet_interval := 4 / 5 }

/-- `Connection.connect` (connection.py 32-51).  `ok` abstracts whether
`asyncio.open_connection` succeeds within the 10-second timeout; on success
the stream is stored and the reconnect counters are reset, on failure (timeout
or exception, both caught) the state is unchanged and `False` is returned. -/
def Connection.connect (s : ConnState) (ok : Bool) : ConnState × Bool :=
  if ok then
    ({ s with connected := true, reconnect_attempts := 0, next_attempt_time := none }, true)
  else (s, false)

/-- `Connection._close_connection` / `Connection.close`
(connection.py 154-169): drop the stream (idempotent). -/
def Connection.close (s : ConnState) : ConnState :=
  { s with connected := false }

/-- Everything observable about one `Connection.reconnect` call: the returned
boolean, the state on return, how long the call slept before attempting
(`next_attempt_time` gating), the backoff delay it computed (`none` when the
guard refused), and whether it performed any I/O (closed the old stream /
opened a new one). -/
structure ReconnectResult where
  ok : Bool
  state : ConnState
  waited : ℚ
  delay : Option ℚ
  attemptedIO : Bool
deriving DecidableEq

/-- `Connection.reconnect` (connection.py 71-106).  The guard is checked
before any I/O; `connectOk` abstracts the outcome of the inner `connect()`
call; `now` is `time.time()` at the call. -/
def Connection.reconnect (s : ConnState) (now : ℚ) (connectOk : Bool) : ReconnectResult :=
  if s.max_reconnect_attempts ≤ s.reconnect_attempts then
    { ok := false, state := s, waited := 0, delay := none, attemptedIO := false }
  else
    let s1 := Connection.close s
    let waited : ℚ :=
      match s1.next_attempt_time with
      | some t => if now < t then t - now else 0
      | none => 0
    let attempts := s1.reconnect_attempts + 1
    let delay : ℚ := min ((2 : ℚ) ^ attempts) 60
    let s2 := { s1 with reconnect_attempts := attempts,
                        last_reconnect_attempt := some now,
                        next_attempt_time := some (now + delay) }
    let c := Connection.connect s2 connectOk
    { ok := c.2, state := c.1, waited := waited, delay := some delay, attemptedIO := true }

/-- `Connection.reset_reconnect_attempts` (connection.py 172-175). -/
def Connection.reset_reconnect_attempts (s : ConnState) : ConnState :=
  { s with reconnect_attempts := 0, next_attempt_time := none }

/-- Everything observable about one `Connection.send` call: returned boolean,
state on return, whether the write completed, and the wall-clock time of the
write (after the pacing sleep).  On the not-connected fast path no write
happens and `writeTime` is irrelevant (set to 0). -/
structure SendResult where
  ok : Bool
  state : ConnState
  wrote : Bool
  writeTime : ℚ
deriving DecidableEq

/-- `Connection.send` (connection.py 108-134).  `now` is `time.time()` on
entry; if less than `packet_interval` has elapsed since `last_send_time` the
call sleeps the remainder, so the write happens at
`last_send_time + packet_interval`, else at `now`.  `writeOk` abstracts
whether `writer.write`/`drain` raises; on success `last_send_time` is set to
the write time, on failure the state is unchanged and `False` returned.
The function never reconnects. -/
def Connection.send (s : ConnState) (now : ℚ) (writeOk : Bool) : SendResult :=
  if s.connected = false then
    { ok := false, state := s, wrote := false, writeTime := 0 }
  else
    let elapsed := now - s.last_send_time
    let t := if elapsed < s.packet_interval then s.last_send_time + s.packet_interval else now
    if writeOk then
      { ok := true, state := { s with last_send_time := t }, wrote := true, writeTime := t }
    else
      { ok := false, state := s, wrote := false, writeTime := t }

/-- The state and the collected backoff delays after `k` consecutive
`reconnect` calls whose inner `connect` always fails, starting from a fresh
connection. -/
def failSeq : Nat → ConnState × List ℚ
  | 0 => (Connection.init, [])
  | k + 1 =>
    let p := failSeq k
    let r := Connection.reconnect p.1 0 false
    (r.state, p.2 ++ r.delay.toList)

/-- Unfolding `reconnect` when the guard refuses. -/
theorem reconnect_guard_eq {s : ConnState} (now : ℚ) (connectOk : Bool)
    (h : s.max_reconnect_attempts ≤ s.reconnect_attempts) :
    Connection.reconnect s now connectOk =
      { ok := false, state := s, waited := 0, delay := none, attemptedIO := false } := by
  rw [Connection.reconnect, if_pos h]

/-- Unfolding `reconnect` below the guard when the inner `connect` fails. -/
theorem reconnect_fail_eq {s : ConnState} (now : ℚ)
    (h : s.reconnect_attempts < s.max_reconnect_attempts) :
    Connection.reconnect s now false =
      { ok := false,
        state := { s with connected := false,
                          reconnect_attempts := s.reconnect_attempts + 1,
                          last_reconnect_attempt := some now,
                          next_attempt_time :=
                            some (now + min ((2 : ℚ) ^ (s.reconnect_attempts + 1)) 60) },
        waited :=
          match s.next_attempt_time with
          | some t => if now < t then t - now else 0
          | none => 0,
        delay := some (min ((2 : ℚ) ^ (s.reconnect_attempts + 1)) 60),
        attemptedIO := true } := by
  rw [Connection.reconnect, if_neg (by omega)]
  rfl

/-- Unfolding `reconnect` below the guard when the inner `connect` succeeds:
the attempt counter is reset to zero. -/
theorem reconnect_ok_eq {s : ConnState} (now : ℚ)
    (h : s.reconnect_attempts < s.max_reconnect_attempts) :
    Connection.reconnect s now true =
      { ok := true,
        state := { s with connected := true,
                          reconnect_attempts := 0,
                          last_reconnect_attempt := some now,
                          next_attempt_time := none },
        waited :=
          match s.next_attempt_time with
          | some t => if now < t then t - now else 0
          | none => 0,
        delay := some (min ((2 : ℚ) ^ (s.reconnect_attempts + 1)) 60),
        attemptedIO := true } := by
  rw [Connection.reconnect, if_neg (by omega)]
  rfl

/-- Shape of the failing-reconnect trace: the attempt counter saturates at the
maximum (10) and the delays are exactly `min (2 ^ (i + 1)) 60` for the
attempts that were allowed to run. -/
theorem failSeq_spec : ∀ k : Nat,
    (failSeq k).1.reconnect_attempts = min k 10 ∧
    (failSeq k).1.max_reconnect_attempts = 10 ∧
    (failSeq k).2 = (List.range (min k 10)).map (fun i => min ((2 : ℚ) ^ (i + 1)) 60) := by
  intro k
  induction k with
  | zero => exact ⟨rfl, rfl, rfl⟩
  | succ k ih =>
    obtain ⟨ha, hm, hd⟩ := ih
    by_cases hk : k < 10
    · have hlt : (failSeq k).1.reconnect_attempts < (failSeq k).1.max_reconnect_attempts := by
        rw [ha, hm]
        omega
      have hr := reconnect_fail_eq (s := (failSeq k).1) 0 hlt
      refine ⟨?_, ?_, ?_⟩
      · show (Connection.reconnect (failSeq k).1 0 false).state.reconnect_attempts = _
        rw [hr]
        show (failSeq k).1.reconnect_attempts + 1 = _
        rw [ha]
        omega
      · show (Connection.reconnect (failSeq k).1 0 false).state.max_reconnect_attempts = 10
        rw [hr]
        exact hm
      · show (failSeq k).2 ++ (Connection.reconnect (failSeq k).1 0 false).delay.toList = _
        rw [hr, hd, ha]
        rw [show min k 10 = k from by omega, show min (k + 1) 10 = k + 1 from by omega,
          List.range_succ, List.map_append]
        rfl
    · have hguard : (failSeq k).1.max_reconnect_attempts ≤ (failSeq k).1.reconnect_attempts := by
        rw [ha, hm]
        omega
      have hr := reconnect_guard_eq (s := (failSeq k).1) 0 false hguard
      refine ⟨?_, ?_, ?_⟩
      · show (Connection.reconnect (failSeq k).1 0 false).state.reconnect_attempts = _
        rw [hr, ha]
        show min k 10 = _
        omega
      · show (Connection.reconnect (failSeq k).1 0 false).state.max_reconnect_attempts = 10
        rw [hr]
        exact hm
      · show (failSeq k).2 ++ (Connection.reconnect (failSeq k).1 0 false).delay.toList = _
        rw [hr, hd]
        rw [show min k 10 = 10 from by omega, show min (k + 1) 10 = 10 from by omega]
        simp

/-- **C4.** For every sequence of consecutive failed `reconnect()` calls the
computed backoff delay is `min (2 ^ attempts) 60` (with `attempts` the
post-increment counter, as in the source), so successive delays are
non-decreasing and capped at 60 seconds; once the counter reaches
`max_reconnect_attempts` (default 10) `reconnect()` returns `False` with no
I/O and an unchanged state until the counter is explicitly reset; and a
successful `connect` resets the counter to zero. -/
theorem c4_reconnect_backoff :
    (∀ k : Nat, List.Chain' (· ≤ ·) (failSeq k).2 ∧ ∀ d ∈ (failSeq k).2, d ≤ 60) ∧
    Connection.init.max_reconnect_attempts = 10 ∧
    (∀ (s : ConnState) (now : ℚ) (connectOk : Bool),
      s.max_reconnect_attempts ≤ s.reconnect_attempts →
      Connection.reconnect s now connectOk =
        { ok := false, state := s, waited := 0, delay := none, attemptedIO := false }) ∧
    (∀ s : ConnState, (Connection.reset_reconnect_attempts s).reconnect_attempts = 0 ∧
      (Connection.reset_reconnect_attempts s).next_attempt_time = none) ∧
    (∀ (s : ConnState) (now : ℚ), s.reconnect_attempts < s.max_reconnect_attempts →
      (Connection.reconnect s now true).ok = true ∧
      (Connection.reconnect s now true).state.reconnect_attempts = 0) ∧
    (∀ (s : ConnState) (now : ℚ) (connectOk : Bool),
      s.reconnect_attempts < s.max_reconnect_attempts →
      (Connection.reconnect s now connectOk).delay =
        some (min ((2 : ℚ) ^ (s.reconnect_attempts + 1)) 60)) := by
  refine ⟨?_, rfl, ?_, ?_, ?_, ?_⟩
  · intro k
    obtain ⟨-, -, hd⟩ := failSeq_spec k
    constructor
    · rw [hd, List.chain'_iff_get]
      intro i hi
      simp only [List.length_map, List.length_range] at hi
      simp only [List.get_eq_getElem, List.getElem_map, List.getElem_range]
      refine min_le_min ?_ le_rfl
      refine pow_le_pow_right₀ (by norm_num) (by omega)
    · rw [hd]
      intro d hdm
      simp only [List.mem_map] at hdm
      obtain ⟨i, -, rfl⟩ := hdm
      exact min_le_right _ _
  · intro s now connectOk h
    exact reconnect_guard_eq now connectOk h
  · intro s
    exact ⟨rfl, rfl⟩
  · intro s now h
    rw [reconnect_ok_eq now h]
    exact ⟨rfl, rfl⟩
  · intro s now connectOk h
    cases connectOk
    · rw [reconnect_fail_eq now h]
    · rw [reconnect_ok_eq now h]

/-- Witness for `c4_reconnect_backoff`: twelve consecutive failures from a
fresh connection (the trace saturates after ten), the guard refusing at the
counter's maximum, and a reconnect from the fresh state. -/
theorem c4_reconnect_backoff_witness :
    (List.Chain' (· ≤ ·) (failSeq 12).2 ∧ ∀ d ∈ (failSeq 12).2, d ≤ 60) ∧
    Connection.reconnect { Connection.init with reconnect_attempts := 10 } 0 true =
      { ok := false, state := { Connection.init with reconnect_attempts := 10 },
        waited := 0, delay := none, attemptedIO := false } ∧
    ((Connection.reconnect Connection.init 0 true).ok = true ∧
      (Connection.reconnect Connection.init 0 true).state.reconnect_attempts = 0) ∧
    (Connection.reconnect Connection.init 0 false).delay = some (min ((2 : ℚ) ^ 1) 60) :=
  ⟨c4_reconnect_backoff.1 12,
   c4_reconnect_backoff.2.2.1 _ 0 true (by decide),
   c4_reconnect_backoff.2.2.2.2.1 Connection.init 0 (by decide),
   c4_reconnect_backoff.2.2.2.2.2 Connection.init 0 false (by decide)⟩

/-- Unfolding `send` on a connected state when the write succeeds: the write
happens at `last_send_time + packet_interval` if the interval has not yet
elapsed, else immediately at `now`, and `last_send_time` is updated to the
write time. -/
theorem send_ok_eq {s : ConnState} (now : ℚ) (h : s.connected = true) :
    Connection.send s now true =
      { ok := true,
        state := { s with last_send_time :=
          if now - s.last_send_time < s.packet_interval then
            s.last_send_time + s.packet_interval else now },
        wrote := true,
        writeTime :=
          if now - s.last_send_time < s.packet_interval then
            s.last_send_time + s.packet_interval else now } := by
  rw [Connection.send, if_neg (by simp [h])]
  rfl

/-- After a successful paced send, `last_send_time` equals the write time, the
connection and interval are unchanged, and the write happened no earlier than
one full interval after the previous `last_send_time`. -/
theorem send_last_writeTime {s : ConnState} (now : ℚ) (h : s.connected = true) :
    (Connection.send s now true).state.last_send_time =
      (Connection.send s now true).writeTime ∧
    (Connection.send s now true).state.connected = true ∧
    (Connection.send s now true).state.packet_interval = s.packet_interval ∧
    s.last_send_time + s.packet_interval ≤ (Connection.send s now true).writeTime := by
  rw [send_ok_eq now h]
  refine ⟨rfl, h, rfl, ?_⟩
  dsimp only
  split_ifs with hc
  · linarith
  · linarith

/-- **C6.** `send` fails fast with an unchanged state (in particular it never
reconnects) when not connected, and for two consecutive successful sends the
wall-clock gap between the two writes is at least `packet_interval`
(default `0.8` seconds, the `4 / 5` in `Connection.init`). -/
theorem c6_send_pacing :
    (∀ (s : ConnState) (now : ℚ) (writeOk : Bool), s.connected = false →
      Connection.send s now writeOk =
        { ok := false, state := s, wrote := false, writeTime := 0 }) ∧
    (∀ (s : ConnState) (now1 now2 : ℚ), s.connected = true →
      s.packet_interval ≤
        (Connection.send (Connection.send s now1 true).state now2 true).writeTime -
          (Connection.send s now1 true).writeTime) ∧
    Connection.init.packet_interval = 4 / 5 := by
  refine ⟨?_, ?_, rfl⟩
  · intro s now writeOk h
    rw [Connection.send, if_pos h]
  · intro s now1 now2 h
    obtain ⟨e1, c1, i1, -⟩ := send_last_writeTime now1 h
    obtain ⟨-, -, -, g2⟩ := send_last_writeTime now2 c1
    rw [e1, i1] at g2
    linarith

/-- Witness for `c6_send_pacing`: a fresh connected connection sending twice
in rapid succession (both entries at time 1), and a disconnected send. -/
theorem c6_send_pacing_witness :
    Connection.send Connection.init 1 true =
      { ok := false, state := Connection.init, wrote := false, writeTime := 0 } ∧
    (4 : ℚ) / 5 ≤
      (Connection.send
        (Connection.send { Connection.init with connected := true } 1 true).state 1
          true).writeTime -
        (Connection.send { Connection.init with connected := true } 1 true).writeTime :=
  ⟨c6_send_pacing.1 Connection.init 1 true rfl,
   c6_send_pacing.2.1 { Connection.init with connected := true } 1 1 rfl⟩

/-! ### The packet queue (`PacketQueue`, client.py 17-79) -/

/-- State of `PacketQueue`: the FIFO backing `queue.Queue` and the
`_has_items` event flag.  (`_pause` and the `asyncio.Lock` do not affect the
values computed by `add_packet`/`get_packet` and are omitted.) -/
structure PQState where
  queue : List (List Nat)
  hasItems : Bool
deriving DecidableEq

/-- The state `PacketQueue.__init__` builds. -/
def PacketQueue.init : PQState := { queue := [], hasItems := false }

/-- `PacketQueue.add_packet` (client.py 27-35): `put_nowait` on an unbounded
`Queue` always succeeds (for any bytes value), so the `except` arm is dead;
the packet goes to the back and `_has_items` is set. -/
def PacketQueue.add_packet (s : PQState) (packet : List Nat) : PQState :=
  { queue := s.queue ++ [packet], hasItems := true }

/-- `PacketQueue.get_packet` (client.py 37-53): `get_nowait` pops the front;
on `Empty` the flag is cleared and `None` returned (no exception escapes); a
successful pop that empties the queue also clears the flag. -/
def PacketQueue.get_packet (s : PQState) : PQState × Option (List Nat) :=
  match s.queue with
  | [] => ({ queue := [], hasItems := false }, none)
  | p :: rest =>
    ({ queue := rest, hasItems := if rest.isEmpty then false else s.hasItems }, some p)

/-- An interleaving step against the queue: either a producer `add_packet` or
a consumer `get_packet`. -/
inductive QOp where
  | add (packet : List Nat)
  | get
deriving DecidableEq

/-- Run a sequence of interleaved operations, collecting every packet a `get`
returned, in order. -/
def PacketQueue.run (s : PQState) : List QOp → PQState × List (List Nat)
  | [] => (s, [])
  | QOp.add p :: ops => PacketQueue.run (PacketQueue.add_packet s p) ops
  | QOp.get :: ops =>
    let g := PacketQueue.get_packet s
    let r := PacketQueue.run g.1 ops
    (r.1, g.2.toList ++ r.2)

/-- The packets added by a sequence of operations, in order. -/
def addsOf (ops : List QOp) : List (List Nat) :=
  ops.filterMap fun op => match op with | QOp.add p => some p | QOp.get => none

/-- Generalised FIFO invariant: what the gets returned, followed by what is
still queued, is the initial queue contents followed by everything added. -/
theorem run_fifo (ops : List QOp) : ∀ s : PQState,
    (PacketQueue.run s ops).2 ++ (PacketQueue.run s ops).1.queue =
      s.queue ++ addsOf ops := by
  induction ops with
  | nil => intro s; simp [PacketQueue.run, addsOf]
  | cons op ops ih =>
    intro s
    match op with
    | QOp.add p =>
      rw [PacketQueue.run]
      rw [ih (PacketQueue.add_packet s p)]
      simp [PacketQueue.add_packet, addsOf, List.filterMap_cons]
    | QOp.get =>
      rw [PacketQueue.run]
      match hq : s.queue with
      | [] =>
        have hg : PacketQueue.get_packet s = ({ queue := [], hasItems := false }, none) := by
          rw [PacketQueue.get_packet, hq]
        rw [hg]
        dsimp only [Option.toList_none]
        rw [List.nil_append, ih { queue := [], hasItems := false }]
        simp [addsOf, List.filterMap_cons, hq]
      | p :: rest =>
        have hg : PacketQueue.get_packet s =
            ({ queue := rest, hasItems := if rest.isEmpty then false else s.hasItems },
              some p) := by
          rw [PacketQueue.get_packet, hq]
        rw [hg]
        dsimp only [Option.toList_some]
        simp only [List.cons_append, List.nil_append]
        rw [ih]
        simp [addsOf, List.filterMap_cons]

/-- **C10.** `get_packet` on an empty queue returns `None` with the has-items
flag cleared, without raising (the function is total); `add_packet` is total
for every bytes value and appends; and over every interleaving of adds and
gets, packets come out in exactly the order they were added (returned packets
followed by the residue equal the added sequence). -/
theorem c10_queue_fifo :
    (∀ h : Bool, PacketQueue.get_packet { queue := [], hasItems := h } =
      ({ queue := [], hasItems := false }, none)) ∧
    (∀ (s : PQState) (p : List Nat),
      (PacketQueue.add_packet s p).queue = s.queue ++ [p]) ∧
    (∀ ops : List QOp,
      (PacketQueue.run PacketQueue.init ops).2 ++
        (PacketQueue.run PacketQueue.init ops).1.queue = addsOf ops) := by
    refine ⟨fun h => rfl, fun s p => rfl, fun ops => ?_⟩
    rw [run_fifo ops PacketQueue.init]
    rfl

/-! ### Integrity codec and the receiver (`crc.py` is absent; client.py 241-263) -/

/-- Modelled from the spec: `pywallpad/crc.py` is not under `src/`.  The spec
(§4.2) describes `calculate_checksum` as a pure function deriving the
single-byte integrity field from the header+payload bytes; we model it as the
byte sum modulo 256 (total, so the `None` arm `send_packet` guards against is
never taken). -/
def calculate_checksum (data : List Nat) : Option Nat :=
  some (data.sum % 256)

/-- Modelled from the spec: `verify_checksum` recomputes the single-byte
checksum over the frame's content (everything before the checksum byte and
the two trailer bytes) and compares it with the embedded field; too-short
input is a verification failure, not an exception (spec §4.2). -/
def verify_checksum (packet : List Nat) : Bool :=
  if packet.length < 5 then false
  else
    match calculate_checksum (packet.take (packet.length - 3)) with
    | none => false
    | some cs => packet.getD (packet.length - 3) 0 == cs

/-- Modelled from the spec: `verify_crc`, the secondary "door-phone"
integrity scheme with a multi-byte integrity field (spec §6); only its
existence and independence from the checksum matter to the claims, so we
model a two-byte big-endian sum over the content before the field. -/
def verify_crc (packet : List Nat) : Bool :=
  if packet.length < 6 then false
  else
    let s := (packet.take (packet.length - 4)).sum
    packet.getD (packet.length - 4) 0 == s / 256 % 256 &&
      packet.getD (packet.length - 3) 0 == s % 256

/-- `KocomClient._process_received_packet` (client.py 241-263), returning the
list of parsed packets delivered to `_notify_callbacks`.  The external
`PacketParser.parse_state` (from the out-of-scope decoder, `packet.py`) is a
parameter: `none` models it raising (caught and logged, zero deliveries), and
each `none` element inside a parsed list models a falsy parsed packet the
`if parsed_packet:` guard skips.  The only integrity check performed is
`verify_checksum`; a frame failing it is dropped before parsing.  The
function is total, so no exception escapes. -/
def process_received_packet {Ev : Type}
    (parse : List Nat → Option (List (Option Ev))) (packet : List Nat) : List Ev :=
  if verify_checksum packet = false then []
  else
    match parse packet with
    | none => []
    | some items => items.filterMap id

-- Round-trip sanity check: a frame built the way `send_packet` builds it
-- passes `verify_checksum`.
example :
    verify_checksum (PREFIX_HEADER ++ [0x30, 0x31] ++
      [((PREFIX_HEADER ++ [0x30, 0x31]).sum % 256)] ++ SUFFIX_HEADER) = true := by
  decide

/-- **C5 (counterexample to the claim as stated).** A concrete frame that
fails checksum verification but passes CRC verification, yet is discarded
with zero events by the receiver even though it parses to an event: the
receiver never attempts CRC verification before declaring a frame invalid. -/
theorem c5_counterexample :
    verify_checksum [0xaa, 0x55, 0x01, 0x01, 0x00, 0x0d, 0x0d] = false ∧
    verify_crc [0xaa, 0x55, 0x01, 0x01, 0x00, 0x0d, 0x0d] = true ∧
    process_received_packet (fun _ => some [some 42])
      [0xaa, 0x55, 0x01, 0x01, 0x00, 0x0d, 0x0d] = ([] : List Nat) := by
  decide

/-- **C5 (amended).** The receiver attempts only checksum verification — there
is no CRC fallback; every frame failing `verify_checksum` is silently
discarded, yielding zero Device Events and invoking no callbacks, whatever
the parser would have produced, and raising no exception (the embedding is a
total function). -/
theorem c5_checksum_only_discard {Ev : Type}
    (parse : List Nat → Option (List (Option Ev))) (packet : List Nat)
    (h : verify_checksum packet = false) :
    process_received_packet parse packet = [] := by
  rw [process_received_packet, if_pos h]

/-- Witness for `c5_checksum_only_discard` at a concrete corrupted frame
(checksum byte flipped) and a parser that would deliver an event. -/
theorem c5_checksum_only_discard_witness :
    verify_checksum [0xaa, 0x55, 0x30, 0x00, 0x0d, 0x0d] = false ∧
    process_received_packet (fun _ => some [some 7])
      [0xaa, 0x55, 0x30, 0x00, 0x0d, 0x0d] = ([] : List Nat) :=
  ⟨by decide,
   c5_checksum_only_discard (fun _ => some [some 7])
     [0xaa, 0x55, 0x30, 0x00, 0x0d, 0x0d] (by decide)⟩

/-! ### Client lifecycle, callbacks and submission (client.py 82-186, 387-417) -/

/-- An asyncio task as the client observes it: only whether it has finished. -/
structure TaskState where
  done : Bool
deriving DecidableEq

/-- The mutable state of `KocomClient` (client.py 85-104) relevant to the
lifecycle and callback claims: the `_is_running` flag, the two long-lived
tasks, the `tasks` list (`start` sets it to exactly those two), the callback
slots, the packet queue, and the owned `Connection`. -/
structure ClientState where
  isRunning : Bool
  listenTask : Option TaskState
  queueTask : Option TaskState
  tasks : List TaskState
  deviceCallbacks : List (Option Nat)
  queue : PQState
  conn : ConnState
deriving DecidableEq

/-- The state `KocomClient.__init__` builds around a connection. -/
def KocomClient.init (conn : ConnState) : ClientState :=
  { isRunning := false, listenTask := none, queueTask := none, tasks := [],
    deviceCallbacks := [], queue := PacketQueue.init, conn := conn }

/-- `KocomClient.start` (client.py 106-128): when already running, warn and
return with nothing changed (the returned flag records the warning);
otherwise set `_is_running` and spawn the two activities. -/
def KocomClient.start (s : ClientState) : ClientState × Bool :=
  if s.isRunning then (s, true)
  else
    ({ s with isRunning := true,
              listenTask := some { done := false },
              queueTask := some { done := false },
              tasks := [{ done := false }, { done := false }] }, false)

/-- `KocomClient.stop` (client.py 130-167): no-op when not running; otherwise
cancel whichever of the two activities has not finished (the two returned
booleans record the cancellations — the extra loop over `self.tasks` adds
nothing because `start` put exactly those two tasks there), await them, then
clear `tasks` and `device_callbacks`.  The connection is **not** touched. -/
def KocomClient.stop (s : ClientState) : ClientState × Bool × Bool :=
  if s.isRunning = false then (s, false, false)
  else
    ({ s with isRunning := false,
              listenTask := s.listenTask.map fun _ => { done := true },
              queueTask := s.queueTask.map fun _ => { done := true },
              tasks := [],
              deviceCallbacks := [] },
     s.listenTask.any fun t => !t.done,
     s.queueTask.any fun t => !t.done)

/-- `KocomClient.add_device_callback` (client.py 169-174): the id is the
current list length; the callback (abstracted to a token) is appended. -/
def KocomClient.add_device_callback (s : ClientState) (cb : Nat) : ClientState × Nat :=
  ({ s with deviceCallbacks := s.deviceCallbacks ++ [some cb] }, s.deviceCallbacks.length)

/-- `KocomClient.remove_device_callback` (client.py 176-186): an in-range id
has its slot overwritten with `None` (tombstone) and `True` is returned —
also when the slot already was `None`; out of range returns `False`.
(Ids are naturals here; the source also rejects negative ids.) -/
def KocomClient.remove_device_callback (s : ClientState) (id : Nat) : ClientState × Bool :=
  if id < s.deviceCallbacks.length then
    ({ s with deviceCallbacks := s.deviceCallbacks.set id none }, true)
  else (s, false)

/-- The callbacks `_notify_callbacks` (client.py 265-281) actually invokes:
the non-`None` slots, in slot order. -/
def KocomClient.active_callbacks (s : ClientState) : List Nat :=
  s.deviceCallbacks.filterMap id

/-- `KocomClient.send_packet` (client.py 387-417): refuse when not running;
otherwise prepend the header, append the computed checksum and the trailer,
re-verify, and enqueue.  Total — no exception escapes. -/
def KocomClient.send_packet (s : ClientState) (packet : List Nat) : ClientState × Bool :=
  if s.isRunning = false then (s, false)
  else
    let packet_copy := PREFIX_HEADER ++ packet
    match calculate_checksum packet_copy with
    | none => (s, false)
    | some checksum =>
      let full := packet_copy ++ [checksum] ++ SUFFIX_HEADER
      if verify_checksum full = false then (s, false)
      else ({ s with queue := PacketQueue.add_packet s.queue full }, true)

/-- A concrete running client with live tasks and an open connection, used by
the lifecycle witnesses. -/
def runningClient : ClientState :=
  { isRunning := true, listenTask := some { done := false },
    queueTask := some { done := false },
    tasks := [{ done := false }, { done := false }],
    deviceCallbacks := [some 0, none], queue := PacketQueue.init,
    conn := { Connection.init with connected := true } }

/-- **C7 (counterexample to the claim as stated).** Stopping a running client
whose transport is open leaves the transport open and its connection state
untouched: `stop()` never closes the `Connection` (the gateway's
`async_disconnect` does that separately, after `client.stop()`). -/
theorem c7_counterexample :
    (KocomClient.stop runningClient).1.conn.connected = true ∧
    (KocomClient.stop runningClient).1.conn = runningClient.conn := by
  constructor
  · rfl
  · rfl

/-- **C7 (amended).** After `stop()` on a running client both long-lived
activities are cancelled (when not already done), the task list and all
registered device callbacks are cleared and the client is no longer running —
but the Transport is left exactly as it was, not closed. -/
theorem c7_stop_behaviour (s : ClientState) (h : s.isRunning = true) :
    (KocomClient.stop s).1.isRunning = false ∧
    (KocomClient.stop s).1.tasks = [] ∧
    (KocomClient.stop s).1.deviceCallbacks = [] ∧
    (KocomClient.stop s).2.1 = (s.listenTask.any fun t => !t.done) ∧
    (KocomClient.stop s).2.2 = (s.queueTask.any fun t => !t.done) ∧
    (KocomClient.stop s).1.conn = s.conn := by
  rw [KocomClient.stop, if_neg (by simp [h])]
  exact ⟨rfl, rfl, rfl, rfl, rfl, rfl⟩

/-- Witness for `c7_stop_behaviour` on the concrete running client. -/
theorem c7_stop_behaviour_witness :
    (KocomClient.stop runningClient).1.isRunning = false ∧
    (KocomClient.stop runningClient).1.tasks = [] ∧
    (KocomClient.stop runningClient).1.deviceCallbacks = [] ∧
    (KocomClient.stop runningClient).2.1 =
      (runningClient.listenTask.any fun t => !t.done) ∧
    (KocomClient.stop runningClient).2.2 =
      (runningClient.queueTask.any fun t => !t.done) ∧
    (KocomClient.stop runningClient).1.conn = runningClient.conn :=
  c7_stop_behaviour runningClient rfl

/-- **C8.** `start()` on an already-running client is a warning no-op: the
state (tasks included) is returned unchanged; `send_packet()` on a client
that is not running returns `False` with a warning and changes nothing (in
particular nothing is enqueued).  Both paths are total, so neither raises. -/
theorem c8_contract_violations :
    (∀ s : ClientState, s.isRunning = true → KocomClient.start s = (s, true)) ∧
    (∀ (s : ClientState) (packet : List Nat), s.isRunning = false →
      KocomClient.send_packet s packet = (s, false)) := by
  constructor
  · intro s h
    rw [KocomClient.start, if_pos h]
  · intro s packet h
    rw [KocomClient.send_packet, if_pos h]

/-- Witness for `c8_contract_violations`: a running client re-started, a
fresh (stopped) client asked to send. -/
theorem c8_contract_violations_witness :
    KocomClient.start runningClient = (runningClient, true) ∧
    KocomClient.send_packet (KocomClient.init Connection.init) [0x30] =
      (KocomClient.init Connection.init, false) :=
  ⟨c8_contract_violations.1 runningClient rfl,
   c8_contract_violations.2 (KocomClient.init Connection.init) [0x30] rfl⟩

/-- **C9.** Callback ids are assigned sequentially as list indices;
`remove_device_callback` tombstones the slot with `None`, leaving every other
slot (hence every other registrant's id) untouched; it returns `True` exactly
for ids below the list length — including ids already removed — and after
`stop()` clears the list, every previously issued id is invalid (removal
returns `False`). -/
theorem c9_callback_registry :
    (∀ (s : ClientState) (cb : Nat),
      (KocomClient.add_device_callback s cb).2 = s.deviceCallbacks.length ∧
      (KocomClient.add_device_callback s cb).1.deviceCallbacks =
        s.deviceCallbacks ++ [some cb]) ∧
    (∀ (s : ClientState) (id j : Nat), j ≠ id →
      (KocomClient.remove_device_callback s id).1.deviceCallbacks[j]? =
        s.deviceCallbacks[j]?) ∧
    (∀ (s : ClientState) (id : Nat),
      (KocomClient.remove_device_callback s id).2 = true ↔
        id < s.deviceCallbacks.length) ∧
    (∀ (s : ClientState) (id : Nat), id < s.deviceCallbacks.length →
      (KocomClient.remove_device_callback
        (KocomClient.remove_device_callback s id).1 id).2 = true) ∧
    (∀ s : ClientState, s.isRunning = true →
      (KocomClient.stop s).1.deviceCallbacks = [] ∧
      ∀ id : Nat,
        (KocomClient.remove_device_callback (KocomClient.stop s).1 id).2 = false) := by
  refine ⟨fun s cb => ⟨rfl, rfl⟩, ?_, ?_, ?_, ?_⟩
  · intro s id j hj
    rw [KocomClient.remove_device_callback]
    split
    · exact List.getElem?_set_ne (fun h => hj h.symm)
    · rfl
  · intro s id
    rw [KocomClient.remove_device_callback]
    split
    · rename_i hc
      simp [hc]
    · rename_i hc
      simp [hc]
  · intro s id h
    have h1 : (KocomClient.remove_device_callback s id).1.deviceCallbacks =
        s.deviceCallbacks.set id none := by
      rw [KocomClient.remove_device_callback, if_pos h]
    rw [KocomClient.remove_device_callback, h1, List.length_set, if_pos h]
  · intro s h
    have hstop : (KocomClient.stop s).1.deviceCallbacks = [] := by
      rw [KocomClient.stop, if_neg (by simp [h])]
    refine ⟨hstop, fun id => ?_⟩
    rw [KocomClient.remove_device_callback, if_neg (by simp [hstop])]

/-- Witness for `c9_callback_registry` on the concrete running client. -/
theorem c9_callback_registry_witness :
    (KocomClient.remove_device_callback runningClient 0).1.deviceCallbacks[1]? =
      runningClient.deviceCallbacks[1]? ∧
    ((KocomClient.remove_device_callback runningClient 1).2 = true ↔
      1 < runningClient.deviceCallbacks.length) ∧
    (KocomClient.remove_device_callback
      (KocomClient.remove_device_callback runningClient 0).1 0).2 = true ∧
    (KocomClient.stop runningClient).1.deviceCallbacks = [] ∧
    (KocomClient.remove_device_callback (KocomClient.stop runningClient).1 0).2 = false :=
  ⟨c9_callback_registry.2.1 runningClient 0 1 (by decide),
   c9_callback_registry.2.2.1 runningClient 1,
   c9_callback_registry.2.2.2.1 runningClient 0 (by decide),
   (c9_callback_registry.2.2.2.2 runningClient rfl).1,
   (c9_callback_registry.2.2.2.2 runningClient rfl).2 0⟩

/-! ### The send retry engine (`_send_packet_with_retry`, client.py 357-385) -/

/-- Everything observable about one `_send_packet_with_retry` call: the
returned boolean, the sleeps performed between attempts (in order), and how
many transmit attempts were made. -/
structure RetryTrace where
  success : Bool
  delays : List ℚ
  attempts : Nat
deriving DecidableEq

/-- The `while retries < self.max_retries` loop of `_send_packet_with_retry`,
with `remaining = max_retries - retries` as structural fuel (`retries` is the
current counter value).  `connected`/`sendOk` abstract
`connection.is_connected()` and the outcome of `connection.send(packet)` at
each attempt index (an exception in `send` is caught and behaves like a
`False` return); `_is_running` is `True` throughout (a client that is not
being stopped mid-send).  After a failed attempt the counter is incremented
and, if attempts remain, the loop sleeps `timeout * retries` with the *new*
counter value — the source's `asyncio.sleep(self.timeout * retries)`. -/
def retryGo (timeout : ℚ) (connected sendOk : Nat → Bool) : Nat → Nat → RetryTrace
  | 0, _ => { success := false, delays := [], attempts := 0 }
  | remaining + 1, retries =>
    if connected retries = false then { success := false, delays := [], attempts := 0 }
    else if sendOk retries then { success := true, delays := [], attempts := 1 }
    else
      let rest := retryGo timeout connected sendOk remaining (retries + 1)
      if 0 < remaining then
        { success := rest.success,
          delays := timeout * (retries + 1) :: rest.delays,
          attempts := rest.attempts + 1 }
      else { success := rest.success, delays := rest.delays, attempts := rest.attempts + 1 }

/-- `KocomClient._send_packet_with_retry` (client.py 357-385): run the retry
loop from a zero counter.  `maxRetries` defaults to 5, `timeout` to `0.25`
(client.py 85-94). -/
def send_packet_with_retry (maxRetries : Nat) (timeout : ℚ)
    (connected sendOk : Nat → Bool) : RetryTrace :=
  retryGo timeout connected sendOk maxRetries 0

/-- The trace of a command whose transmission always fails while connected:
every allowed attempt is made, the sleeps are `timeout * 1, timeout * 2, …`
(linearly increasing), and the call returns `False`. -/
theorem retryGo_allFail (t : ℚ) : ∀ remaining k : Nat,
    retryGo t (fun _ => true) (fun _ => false) remaining k =
      { success := false,
        delays := (List.range' (k + 1) (remaining - 1)).map (fun n : ℕ => t * (n : ℚ)),
        attempts := remaining } := by
  intro remaining
  induction remaining with
  | zero => intro k; rfl
  | succ r ih =>
    intro k
    rw [retryGo]
    simp only [Bool.true_eq_false, if_false, if_neg (Bool.false_ne_true)]
    rw [ih (k + 1)]
    match r with
    | 0 => rfl
    | r' + 1 =>
      rw [if_pos (by omega)]
      rw [show (r' + 1 + 1 - 1) = (r' + 1 - 1) + 1 from by omega, List.range'_succ,
        List.map_cons]
      dsimp only
      simp only [RetryTrace.mk.injEq, List.cons.injEq]
      refine ⟨trivial, ⟨?_, trivial⟩, trivial⟩
      push_cast
      ring

/-- **C1 (counterexample to the claim as stated).** With the default
`max_retries = 5` and `timeout = 0.25`, a queued command whose transmission
never succeeds is attempted 5 times with sleeps `0.25, 0.5, 0.75, 1` between
attempts — linearly increasing, not `base * 2 ^ attempt` for any base — and
then dropped with `False`.  (The engine's trace takes no received Device
Events as input at all: a command completes on a successful transport write,
with no acknowledgment matching.) -/
theorem c1_counterexample :
    (send_packet_with_retry 5 (1 / 4) (fun _ => true) (fun _ => false)).delays =
      [1 / 4, 1 / 2, 3 / 4, 1] ∧
    (send_packet_with_retry 5 (1 / 4) (fun _ => true) (fun _ => false)).attempts = 5 ∧
    (send_packet_with_retry 5 (1 / 4) (fun _ => true) (fun _ => false)).success = false ∧
    ¬ ∃ base : ℚ,
      (send_packet_with_retry 5 (1 / 4) (fun _ => true) (fun _ => false)).delays =
        [base * 2 ^ 0, base * 2 ^ 1, base * 2 ^ 2, base * 2 ^ 3] := by
  have h := retryGo_allFail (1 / 4) 5 0
  have hd : (send_packet_with_retry 5 (1 / 4) (fun _ => true) (fun _ => false)).delays =
      [1 / 4, 1 / 2, 3 / 4, 1] := by
    rw [send_packet_with_retry, h]
    show (List.range' 1 4).map (fun n : ℕ => (1 / 4 : ℚ) * (n : ℚ)) = _
    norm_num [List.range']
  refine ⟨hd, ?_, ?_, ?_⟩
  · rw [send_packet_with_retry, h]
  · rw [send_packet_with_retry, h]
  · rintro ⟨b, hb⟩
    rw [hd] at hb
    simp only [List.cons.injEq, and_true] at hb
    norm_num at hb
    obtain ⟨h1, h2, h3, h4⟩ := hb
    linarith

/-- **C1 (amended).** A queued command whose transmission keeps failing is
attempted exactly `max_retries` times (default 5) with *linearly* increasing
sleeps `timeout * n` after the `n`-th failed attempt, then dropped: the
engine logs, returns `False` and terminates, so the queue loop goes on.  A
command is considered delivered as soon as `connection.send` reports success
(one attempt, no sleeps); the engine performs no acknowledgment matching
against received Device Events — its behaviour is a function of the
connection and transmit outcomes alone. -/
theorem c1_retry_linear :
    (∀ (m : Nat) (t : ℚ),
      send_packet_with_retry m t (fun _ => true) (fun _ => false) =
        { success := false,
          delays := (List.range' 1 (m - 1)).map (fun n : ℕ => t * (n : ℚ)),
          attempts := m }) ∧
    (∀ (m : Nat) (t : ℚ) (connected sendOk : Nat → Bool),
      0 < m → connected 0 = true → sendOk 0 = true →
      send_packet_with_retry m t connected sendOk =
        { success := true, delays := [], attempts := 1 }) := by
  constructor
  · intro m t
    exact retryGo_allFail t m 0
  · intro m t connected sendOk hm hc hs
    match m, hm with
    | m' + 1, _ =>
      rw [send_packet_with_retry, retryGo, if_neg (by simp [hc]), if_pos hs]

/-- Witness for `c1_retry_linear` at the source defaults
(`max_retries = 5`, `timeout = 0.25`). -/
theorem c1_retry_linear_witness :
    send_packet_with_retry 5 (1 / 4) (fun _ => true) (fun _ => false) =
      { success := false,
        delays := (List.range' 1 4).map (fun n : ℕ => (1 / 4 : ℚ) * (n : ℚ)),
        attempts := 5 } ∧
    send_packet_with_retry 5 (1 / 4) (fun _ => true) (fun _ => true) =
      { success := true, delays := [], attempts := 1 } :=
  ⟨c1_retry_linear.1 5 (1 / 4),
   c1_retry_linear.2 5 (1 / 4) (fun _ => true) (fun _ => true) (by norm_num) rfl rfl⟩
